import Mathlib

/-!
Verification of the heuristic document-extraction pipeline in
`extract.py` (ChatMED/RAG-Evaluation).

Texts are modelled as `List Char`.  Python's regular-expression passes are
embedded as explicit scanning functions; each embedded definition mirrors
one Python function of the source and keeps its name.  Python `\s`, `\d`
and `str.lower` are modelled on their ASCII behaviour (every character
occurring in the repository's patterns and in the claims is ASCII; in
particular `'\n'` is whitespace in both readings, which is all the
newline-freeness results below depend on).
-/

/-- Shorthand turning a string literal into the `List Char` it denotes. -/
def lc (s : String) : List Char := s.data

/-- ASCII model of Python's `\s` class (blank, tab, newline, CR, FF, VT). -/
def isPySpace (c : Char) : Bool :=
  c = ' ' || c = '\t' || c = '\n' || c = '\r' || c = '\x0c' || c = '\x0b'

/-- ASCII uppercase letter, the `[A-Z]` class. -/
def isUpperAscii (c : Char) : Bool := 'A' ≤ c && c ≤ 'Z'

/-- ASCII model of Python's `str.lower` on a single character. -/
def asciiToLower (c : Char) : Char :=
  if isUpperAscii c then Char.ofNat (c.toNat + 32) else c

/-- Model of Python's `str.lower`: lowercase every character. -/
def pyLower (s : List Char) : List Char := s.map asciiToLower

/-- Model of Python's `str.strip`: drop leading and trailing whitespace. -/
def pyStrip (s : List Char) : List Char :=
  ((s.dropWhile isPySpace).reverse.dropWhile isPySpace).reverse

/-- Scanner for `re.sub(r'\s+', ' ', _)`: every maximal whitespace run
becomes a single blank.  The boolean records whether the previous
character belonged to a whitespace run. -/
def collapseWsAux : Bool → List Char → List Char
  | _, [] => []
  | inRun, c :: cs =>
    if isPySpace c then
      if inRun then collapseWsAux true cs else ' ' :: collapseWsAux true cs
    else c :: collapseWsAux false cs

/-- `re.sub(r'\s+', ' ', text)` of `clean_pdf_text`. -/
def collapseWs (s : List Char) : List Char := collapseWsAux false s

/-- Attempt to match `\d+\n` (the tail of the page-number regex
`\n\d+\n`) at the head of the list; returns the remainder after the
closing newline. -/
def matchPageNum (cs : List Char) : Option (List Char) :=
  let ds := cs.takeWhile Char.isDigit
  if ds.isEmpty then none
  else
    match cs.drop ds.length with
    | '\n' :: r => some r
    | _ => none

/-- Left-to-right scanner for `re.sub(r'\n\d+\n', '\n', _)`; matches are
non-overlapping and replaced by a single newline, scanning resumes after
each replacement.  Fuel is the length of the list, which bounds the
number of steps. -/
def stripPageNumsAux : Nat → List Char → List Char
  | 0, cs => cs
  | _ + 1, [] => []
  | fuel + 1, c :: cs =>
    if c = '\n' then
      match matchPageNum cs with
      | some r => '\n' :: stripPageNumsAux fuel r
      | none => c :: stripPageNumsAux fuel cs
    else c :: stripPageNumsAux fuel cs

/-- `re.sub(r'\n\d+\n', '\n', text)` of `clean_pdf_text`. -/
def stripPageNums (s : List Char) : List Char := stripPageNumsAux s.length s

/-- The single-character class of the URL regex
`[a-zA-Z]|[0-9]|[$-_@.&+]|[!*\\(\\),]` (the `%hh` alternative adds no new
characters since `%` and all hex digits already lie in `[$-_]` or
`[a-z]`).  `[$-_]` is the ASCII range 0x24–0x5F, which already contains
the digits, the uppercase letters and all the listed punctuation except
`!`. -/
def isUrlChar (c : Char) : Bool :=
  ('$' ≤ c && c ≤ '_') || ('a' ≤ c && c ≤ 'z') || c = '!'

/-- Match `://` followed by a maximal nonempty run of URL characters;
returns the remainder after the run. -/
def matchUrlTail (cs : List Char) : Option (List Char) :=
  match cs with
  | ':' :: '/' :: '/' :: r =>
    if (r.takeWhile isUrlChar).isEmpty then none
    else some (r.dropWhile isUrlChar)
  | _ => none

/-- Match the URL regex `http[s]?://(…)+` at the head of the list
(greedy `[s]?`: when the optional `s` branch fails the `s`-less branch
also fails, since the next character would be `s`, not `:`). -/
def matchUrl : List Char → Option (List Char)
  | 'h' :: 't' :: 't' :: 'p' :: 's' :: rest => matchUrlTail rest
  | 'h' :: 't' :: 't' :: 'p' :: rest => matchUrlTail rest
  | _ => none

/-- Left-to-right scanner for the URL-removal `re.sub(url_regex, '', _)`. -/
def stripUrlsAux : Nat → List Char → List Char
  | 0, cs => cs
  | _ + 1, [] => []
  | fuel + 1, c :: cs =>
    match matchUrl (c :: cs) with
    | some r => stripUrlsAux fuel r
    | none => c :: stripUrlsAux fuel cs

/-- URL-removal pass of `clean_pdf_text`. -/
def stripUrls (s : List Char) : List Char := stripUrlsAux s.length s

/-- Does a maximal non-whitespace run match `\S+@\S+`, i.e. contain an
`@` that is neither its first nor its last character?  (The leftmost
match of `\S+@\S+` inside such a run starts at the run's first character
and, by greediness, extends to its last, so `re.sub` deletes the whole
run exactly under this condition.) -/
def hasInteriorAt (run : List Char) : Bool := run.tail.dropLast.contains '@'

/-- Left-to-right scanner for `re.sub(r'\S+@\S+', '', _)`: whitespace is
copied, and each maximal non-whitespace run is deleted when it matches
`\S+@\S+` and copied otherwise. -/
def stripEmailsAux : Nat → List Char → List Char
  | 0, cs => cs
  | _ + 1, [] => []
  | fuel + 1, c :: cs =>
    if isPySpace c then c :: stripEmailsAux fuel cs
    else
      let run := (c :: cs).takeWhile (fun d => !isPySpace d)
      let rest := (c :: cs).dropWhile (fun d => !isPySpace d)
      if hasInteriorAt run then stripEmailsAux fuel rest
      else run ++ stripEmailsAux fuel rest

/-- Email-removal pass of `clean_pdf_text`. -/
def stripEmails (s : List Char) : List Char := stripEmailsAux s.length s

/-- Scanner for `re.sub(r'\n+', '\n', _)`: every maximal newline run
becomes a single newline. -/
def collapseNlAux : Bool → List Char → List Char
  | _, [] => []
  | inRun, c :: cs =>
    if c = '\n' then
      if inRun then collapseNlAux true cs else '\n' :: collapseNlAux true cs
    else c :: collapseNlAux false cs

/-- `re.sub(r'\n+', '\n', text)` of `clean_pdf_text`. -/
def collapseNl (s : List Char) : List Char := collapseNlAux false s

/-- `clean_pdf_text` (Step 2 of the pipeline): collapse whitespace, strip
page numbers, URLs and emails, collapse newlines, then trim. -/
def clean_pdf_text (raw_text : List Char) : List Char :=
  pyStrip (collapseNl (stripEmails (stripUrls (stripPageNums (collapseWs raw_text)))))

/-- Is the first list an initial segment of the second? -/
def leadsWith : List Char → List Char → Bool
  | [], _ => true
  | _ :: _, [] => false
  | c :: cs, d :: ds => c = d && leadsWith cs ds

/-- Index of the leftmost occurrence of `needle` in the remaining text,
offset by the accumulator. -/
def findSubstrAux : List Char → List Char → Nat → Option Nat
  | needle, [], i => if needle.isEmpty then some i else none
  | needle, c :: cs, i =>
    if leadsWith needle (c :: cs) then some i else findSubstrAux needle cs (i + 1)

/-- Leftmost occurrence of a literal pattern, the model of `re.search`
for the newline-delimited literal patterns of the source. -/
def findSubstr (needle hay : List Char) : Option Nat := findSubstrAux needle hay 0

/-- Python's `in` substring test, used for the title skip-markers. -/
def containsSub (needle hay : List Char) : Bool := (findSubstr needle hay).isSome

/-- The case-insensitive skip markers of `extract_title`. -/
def titleMarkers : List (List Char) := [lc "issn", lc "doi", lc "©", lc "page", lc "volume"]

/-- Does a line contain one of the skip markers (checked on the
lowercased line, as `skip in line.lower()`)? -/
def hasTitleMarker (line : List Char) : Bool :=
  titleMarkers.any (fun m => containsSub m (pyLower line))

/-- The non-empty stripped lines of a text
(`[line.strip() for line in text.split('\n') if line.strip()]`). -/
def splitCleanLines (text : List Char) : List (List Char) :=
  ((text.splitOn '\n').map pyStrip).filter (fun l => !l.isEmpty)

/-- The `for line in lines[:20]` loop body of `extract_title`: skip
marker lines, return the first remaining line longer than 10 characters. -/
def titleLoop : List (List Char) → List Char
  | [] => lc "Document title not found"
  | l :: ls =>
    if hasTitleMarker l then titleLoop ls
    else if l.length > 10 then l else titleLoop ls

/-- `extract_title`: first qualifying line among the first 20 non-empty
stripped lines, else the sentinel. -/
def extract_title (text : List Char) : List Char :=
  titleLoop ((splitCleanLines text).take 20)

/-- The class `[A-Z\s]` of the all-caps heading boundary regex. -/
def capsClass (c : Char) : Bool := isUpperAscii c || isPySpace c

/-- Head-of-list newline test. -/
def headIsNl : List Char → Bool
  | '\n' :: _ => true
  | _ => false

/-- Does the list start with `[A-Z\s]+` followed by `\n`?  (Existence of
a match of that regex fragment; greediness only affects which match is
taken, not whether one exists.) -/
def capsRun : List Char → Bool
  | [] => false
  | c :: cs => capsClass c && (headIsNl cs || capsRun cs)

/-- Does a match of the boundary regex `\n[A-Z][A-Z\s]+\n` start at the
head of the list? -/
def allCapsAt : List Char → Bool
  | '\n' :: c :: rest => isUpperAscii c && capsRun rest
  | _ => false

/-- Leftmost start position of an all-caps heading match, the model of
`re.search(r'\n[A-Z][A-Z\s]+\n', _)`. -/
def findAllCapsAux : List Char → Nat → Option Nat
  | [], _ => none
  | c :: cs, i => if allCapsAt (c :: cs) then some i else findAllCapsAux cs (i + 1)

/-- Leftmost all-caps heading match position. -/
def findAllCaps (tl : List Char) : Option Nat := findAllCapsAux tl 0

/-- The `for end_pattern in end_patterns` loop of
`extract_section_by_pattern`: the first of the four boundary patterns
(all-caps heading, `\nreferences\n`, `\nconclusion\n`, `\ndiscussion\n`)
that matches the lowercased text after the start position gives the
offset of its leftmost match; `none` when none matches. -/
def boundaryOffset (tl : List Char) : Option Nat :=
  match findAllCaps tl with
  | some j => some j
  | none =>
    match findSubstr (lc "\nreferences\n") tl with
    | some j => some j
    | none =>
      match findSubstr (lc "\nconclusion\n") tl with
      | some j => some j
      | none => findSubstr (lc "\ndiscussion\n") tl

/-- `end_pos` of `extract_section_by_pattern`: `start_pos` plus the
boundary offset in `text_lower[start_pos:]`, or `len(text)` when no
boundary pattern matches. -/
def endPosFrom (text : List Char) (startPos : Nat) : Nat :=
  match boundaryOffset ((pyLower text).drop startPos) with
  | some j => startPos + j
  | none => text.length

/-- `text[start_pos:end_pos].strip()` with `end_pos` as above; slices
are taken from the original text, preserving casing. -/
def strippedSection (text : List Char) (startPos : Nat) : List Char :=
  pyStrip ((text.drop startPos).take (endPosFrom text startPos - startPos))

/-- `return section[:max_chars] if section else None`. -/
def optSection (s : List Char) (maxChars : Nat) : Option (List Char) :=
  if s.isEmpty then none else some (s.take maxChars)

/-- The body executed once a start pattern has matched with end position
`start_pos`: delimit, slice, strip, truncate. -/
def sectionFrom (text : List Char) (startPos maxChars : Nat) : Option (List Char) :=
  optSection (strippedSection text startPos) maxChars

/-- The `for pattern in patterns` loop of `extract_section_by_pattern`:
first pattern with a match in the lowercased text wins and the function
returns from inside the loop. -/
def sectionGo (text : List Char) (maxChars : Nat) : List (List Char) → Option (List Char)
  | [] => none
  | p :: ps =>
    match findSubstr p (pyLower text) with
    | some i => sectionFrom text (i + p.length) maxChars
    | none => sectionGo text maxChars ps

/-- `extract_section_by_pattern(text, patterns, max_chars)`. -/
def extract_section_by_pattern (text : List Char) (patterns : List (List Char))
    (maxChars : Nat) : Option (List Char) :=
  sectionGo text maxChars patterns

/-- First start pattern (with its leftmost match position) that matches
the lowercased text — the specification-side description of the start
loop, used to characterise `extract_section_by_pattern`. -/
def firstStartMatch (textLower : List Char) : List (List Char) → Option (List Char × Nat)
  | [] => none
  | p :: ps =>
    match findSubstr p textLower with
    | some i => some (p, i)
    | none => firstStartMatch textLower ps

/-- Python's `str.isdigit` (ASCII model): nonempty and all digits. -/
def pyIsDigit (s : List Char) : Bool := !s.isEmpty && s.all Char.isDigit

/-- The start patterns of `extract_references`. -/
def refPatterns : List (List Char) :=
  [lc "\nreferences\n", lc "\nbibliography\n", lc "\ncitations\n"]

/-- `extract_references`: locate a references section (cap 1500), keep
the stripped lines longer than 20 characters that are not purely
numeric, join the first 5 with `"; "`. -/
def extract_references (text : List Char) : Option (List Char) :=
  match extract_section_by_pattern text refPatterns 1500 with
  | some refText =>
    if refText.isEmpty then none
    else
      let refs := ((refText.splitOn '\n').map pyStrip).filter
        (fun l => l.length > 20 && !pyIsDigit l)
      some (List.intercalate (lc "; ") (refs.take 5))
  | none => none

/-- The four figure keywords (with their trailing blank), lowercased for
the `re.IGNORECASE` comparison. -/
def figKws : List (List Char) := [lc "figure ", lc "fig. ", lc "table ", lc "image "]

/-- Match one figure pattern `<kw>\d+[:.][^\.]*\.` at the head of the
list (case-insensitive keyword); returns the length of the match. -/
def matchFig (kw : List Char) (cs : List Char) : Option Nat :=
  if pyLower (cs.take kw.length) = kw then
    let rest := cs.drop kw.length
    let ds := rest.takeWhile Char.isDigit
    if ds.isEmpty then none
    else
      match rest.drop ds.length with
      | c :: rest3 =>
        if c = ':' || c = '.' then
          let nd := rest3.takeWhile (fun d => d ≠ '.')
          match rest3.drop nd.length with
          | '.' :: _ => some (kw.length + ds.length + 1 + nd.length + 1)
          | _ => none
        else none
      | [] => none
  else none

/-- `re.findall` for one figure pattern: non-overlapping matches
collected left to right, the matched substrings taken from the original
text. -/
def findAllFigAux (kw : List Char) : Nat → List Char → List (List Char)
  | 0, _ => []
  | _ + 1, [] => []
  | fuel + 1, c :: cs =>
    match matchFig kw (c :: cs) with
    | some n => (c :: cs).take n :: findAllFigAux kw fuel ((c :: cs).drop n)
    | none => findAllFigAux kw fuel cs

/-- `extract_figures_and_images`: all matches of the four patterns in
pattern order, first 10 joined with `"; "`; `None` when there are no
matches. -/
def extract_figures_and_images (text : List Char) : Option (List Char) :=
  let info := (figKws.map (fun kw => findAllFigAux kw text.length text)).flatten
  if info.isEmpty then none else some (List.intercalate (lc "; ") (info.take 10))

/-- Model of a Python/JSON value as it can appear in the extraction
dictionaries (the heuristic fields are strings or `None`; a model reply
parsed from JSON can additionally hold booleans, numbers, lists and
nested objects). -/
inductive PyVal where
  | none
  | bool (b : Bool)
  | int (n : Int)
  | str (s : List Char)
  | list (xs : List PyVal)
  | dict (kvs : List (List Char × PyVal))

/-- A Python dictionary with string keys, modelled as an association
list in insertion order with unique keys. -/
def PyDict := List (List Char × PyVal)

/-- Dictionary lookup (`d[k]` / `k in d`). -/
def dictGet (d : PyDict) (k : List Char) : Option PyVal :=
  (d.find? (fun kv => kv.1 = k)).map (fun kv => kv.2)

/-- Dictionary assignment `d[k] = v`: update the existing entry in
place, else append. -/
def dictSet : PyDict → List Char → PyVal → PyDict
  | [], k, v => [(k, v)]
  | (k', v') :: rest, k, v =>
    if k' = k then (k, v) :: rest else (k', v') :: dictSet rest k v

/-- Python truthiness of a value. -/
def pyTruthy : PyVal → Bool
  | .none => false
  | .bool b => b
  | .int n => n != 0
  | .str s => !s.isEmpty
  | .list xs => !xs.isEmpty
  | .dict kvs => !kvs.isEmpty

/-- Python's `value == "null"`: only the string `"null"` compares equal
to it (comparisons across types are `False`, never an error). -/
def isNullStr : PyVal → Bool
  | .str s => s = lc "null"
  | _ => false

/-- The start patterns for the `Introduction` field. -/
def introPatterns : List (List Char) :=
  [lc "\nintroduction\n", lc "\nabstract\n", lc "\nsummary\n", lc "\nbackground\n"]

/-- The start patterns for the `Thoughts` field. -/
def thoughtPatterns : List (List Char) :=
  [lc "\nmethods\n", lc "\nmethodology\n", lc "\napproach\n", lc "\ndiscussion\n"]

/-- The start patterns for the `Answers` field. -/
def answerPatterns : List (List Char) :=
  [lc "\nresults\n", lc "\nfindings\n", lc "\nconclusion\n", lc "\noutcome\n"]

/-- The start patterns for the `Further_Development` field. -/
def limitationPatterns : List (List Char) :=
  [lc "\nlimitations\n", lc "\nfuture work\n", lc "\nfuture research\n"]

/-- `x if x else fallback` for a required section: the fallback string
replaces a missing (or falsy, i.e. empty) extraction result. -/
def orFallback (r : Option (List Char)) (fb : List Char) : PyVal :=
  match r with
  | some s => if s.isEmpty then .str fb else .str s
  | none => .str fb

/-- Direct storage of an optional extraction result (`None` passes
through untouched). -/
def optVal : Option (List Char) → PyVal
  | some s => .str s
  | none => .none

/-- `extract_document_structure` (Step 3): build the extraction
dictionary field by field, substituting the literal fallback sentinels
for the three required section fields. -/
def extract_document_structure (clean_text : List Char) : PyDict :=
  [(lc "document", PyVal.str (extract_title clean_text)),
   (lc "Introduction",
     orFallback (extract_section_by_pattern clean_text introPatterns 1500)
       (lc "Introduction section not found in document")),
   (lc "Thoughts",
     orFallback (extract_section_by_pattern clean_text thoughtPatterns 1500)
       (lc "Methods/Discussion section not found in document")),
   (lc "Answers",
     orFallback (extract_section_by_pattern clean_text answerPatterns 1500)
       (lc "Results/Conclusions section not found in document")),
   (lc "Further_Reading", optVal (extract_references clean_text)),
   (lc "Images", optVal (extract_figures_and_images clean_text)),
   (lc "Further_Development",
     optVal (extract_section_by_pattern clean_text limitationPatterns 1000))]

/-- The validated record (`DocumentInfo`): four required string fields,
nine optional nullable string fields. -/
structure DocumentInfo where
  document : List Char
  Introduction : List Char
  Thoughts : List Char
  Answers : List Char
  Hallmarks : Option (List Char)
  Further_Reading : Option (List Char)
  Images : Option (List Char)
  Further_Development : Option (List Char)
  Thoughts_I : Option (List Char)
  Answers_I : Option (List Char)
  Answers_II : Option (List Char)
  Further_Thoughts : Option (List Char)
  Ependymoma : Option (List Char)
deriving DecidableEq

/-- The names of the four required fields. -/
def requiredFields : List (List Char) :=
  [lc "document", lc "Introduction", lc "Thoughts", lc "Answers"]

/-- The names of the nine optional fields. -/
def optionalFields : List (List Char) :=
  [lc "Hallmarks", lc "Further_Reading", lc "Images", lc "Further_Development",
   lc "Thoughts_I", lc "Answers_I", lc "Answers_II", lc "Further_Thoughts",
   lc "Ependymoma"]

/-- Validation errors of a required field: it must be present with a
string value. -/
def reqErr (d : PyDict) (k : List Char) : List (List Char) :=
  match dictGet d k with
  | some (.str _) => []
  | _ => [k]

/-- Validation errors of an optional field: when present it must be a
string or `None`; absence is fine. -/
def optErr (d : PyDict) (k : List Char) : List (List Char) :=
  match dictGet d k with
  | Option.none => []
  | some (.str _) => []
  | some .none => []
  | some _ => [k]

/-- All schema-validation errors of a mapping against the
`DocumentInfo` schema (extra keys are ignored, as pydantic does by
default). -/
def validationErrors (d : PyDict) : List (List Char) :=
  (requiredFields.map (reqErr d)).flatten ++ (optionalFields.map (optErr d)).flatten

/-- Read a required field, assuming validation passed. -/
def getStr (d : PyDict) (k : List Char) : List Char :=
  match dictGet d k with
  | some (.str s) => s
  | _ => []

/-- Read an optional field, assuming validation passed. -/
def getOptStr (d : PyDict) (k : List Char) : Option (List Char) :=
  match dictGet d k with
  | some (.str s) => some s
  | _ => Option.none

/-- `create_document_info` (Step 4): validate the mapping against the
schema, failing with the list of missing or invalid field names, else
build the record. -/
def create_document_info (extracted_data : PyDict) :
    Except (List (List Char)) DocumentInfo :=
  if validationErrors extracted_data = [] then
    .ok
      { document := getStr extracted_data (lc "document")
        Introduction := getStr extracted_data (lc "Introduction")
        Thoughts := getStr extracted_data (lc "Thoughts")
        Answers := getStr extracted_data (lc "Answers")
        Hallmarks := getOptStr extracted_data (lc "Hallmarks")
        Further_Reading := getOptStr extracted_data (lc "Further_Reading")
        Images := getOptStr extracted_data (lc "Images")
        Further_Development := getOptStr extracted_data (lc "Further_Development")
        Thoughts_I := getOptStr extracted_data (lc "Thoughts_I")
        Answers_I := getOptStr extracted_data (lc "Answers_I")
        Answers_II := getOptStr extracted_data (lc "Answers_II")
        Further_Thoughts := getOptStr extracted_data (lc "Further_Thoughts")
        Ependymoma := getOptStr extracted_data (lc "Ependymoma") }
  else .error (validationErrors extracted_data)

/-- Python's `str.find(c)`: index of the first occurrence, `-1` when
absent. -/
def pyFind (s : List Char) (c : Char) : Int :=
  match s.findIdx? (fun d => d = c) with
  | some i => (i : Int)
  | Option.none => -1

/-- Python's `str.rfind(c)`: index of the last occurrence, `-1` when
absent. -/
def pyRfind (s : List Char) (c : Char) : Int :=
  match s.reverse.findIdx? (fun d => d = c) with
  | some i => ((s.length - 1 - i : Nat) : Int)
  | Option.none => -1

/-- Python slice `s[a:b]` for non-negative bounds. -/
def pySlice (s : List Char) (a b : Nat) : List Char := (s.take b).drop a

/-- The fixed prompt text before the embedded document
(`create_llm_prompt`, everything up to `{clean_text}`). -/
def promptHead : List Char :=
  lc "\nAnalyze this document and extract information in JSON format. Return ONLY valid JSON.\n\nRequired fields:\n- document: Document title\n- Introduction: Introduction or summary  \n- Thoughts: Main thoughts, insights, methodology\n- Answers: Key findings, results, conclusions\n\nOptional fields (use null if not found):\n- Hallmarks: Key characteristics\n- Further_Reading: References or recommended reading\n- Images: Description of figures/tables/images\n- Further_Development: Future work, limitations, next steps\n- Thoughts_I: Additional thoughts part I\n- Answers_I: Additional answers part I  \n- Answers_II: Additional answers part II\n- Further_Thoughts: Further considerations\n- Ependymoma: Any ependymoma-related content\n\nDocument text:\n"

/-- The fixed prompt text after the embedded document. -/
def promptTail : List Char := lc "\n\nReturn only the JSON object:\n"

/-- `create_llm_prompt`: the fixed template with the cleaned text
embedded. -/
def create_llm_prompt (clean_text : List Char) : List Char :=
  promptHead ++ clean_text ++ promptTail

/-- The response-parsing step of `enhance_with_llm`: a string response
is cut between the first `{` and the last `}` (note `rfind` returning
`-1` makes `json_end = 0`, which still passes the `!= -1` test) and
handed to the JSON decoder; a raised decoding error is an `error`
result; a non-string response is used directly.  The decoder
`jsonLoads` is the external `json.loads` collaborator. -/
def parseLlmResponse (jsonLoads : List Char → Except Unit PyVal) :
    PyVal → Except Unit PyVal
  | .str s =>
    let jsonStart := pyFind s '{'
    let jsonEnd := pyRfind s '}' + 1
    if jsonStart ≠ -1 ∧ jsonEnd ≠ -1 then
      jsonLoads (pySlice s jsonStart.toNat jsonEnd.toNat)
    else .error ()
  | v => .ok v

/-- The merge loop of `enhance_with_llm`: fold the model's key/value
pairs over a copy of the heuristic mapping, keeping only truthy values
different from the string `"null"`. -/
def mergeLlm (extracted : PyDict) (kvs : List (List Char × PyVal)) : PyDict :=
  kvs.foldl
    (fun acc kv => if pyTruthy kv.2 && !isNullStr kv.2 then dictSet acc kv.1 kv.2 else acc)
    extracted

/-- `enhance_with_llm`: without a model function the heuristic mapping
passes through; otherwise invoke, parse and merge, and on any raised
failure (invocation error, missing braces, decoding error, or a parsed
value that is not an object, whose `.items()` raises) return the
heuristic mapping unchanged — the surrounding `try/except` never lets
an exception escape, which the totality of this definition models. -/
def enhance_with_llm (extracted_data : PyDict) (clean_text : List Char)
    (llmFunction : Option (List Char → Except Unit PyVal))
    (jsonLoads : List Char → Except Unit PyVal) : PyDict :=
  match llmFunction with
  | Option.none => extracted_data
  | some f =>
    match f (create_llm_prompt clean_text) with
    | .error _ => extracted_data
    | .ok resp =>
      match parseLlmResponse jsonLoads resp with
      | .error _ => extracted_data
      | .ok llmData =>
        match llmData with
        | .dict kvs => mergeLlm extracted_data kvs
        | _ => extracted_data

/-- The raw example input of the specification's example scenario. -/
def exampleRaw : List Char :=
  lc "ISSN 1234\n\nIntroduction\nThis paper studies X.\n\nMethods\nWe did Y.\n\nResults\nWe found Z.\n\nReferences\n1. Smith et al., 2020, a long citation line over twenty chars.\n"


/-! ## Newline-freeness of the normalizer (claim C2 machinery) -/

theorem toNat_ofNat_small (n : Nat) (h : n < 55296) : (Char.ofNat n).toNat = n := by
  simp [Char.ofNat, Nat.isValidChar, h, Char.toNat, Char.ofNatAux, UInt32.toNat,
    BitVec.toNat_ofNatLt]

theorem asciiToLower_ne_nl (c : Char) (h : c ≠ '\n') : asciiToLower c ≠ '\n' := by
  unfold asciiToLower
  by_cases hu : isUpperAscii c
  · simp only [hu, if_true]
    intro heq
    have h1 : 65 ≤ c.toNat ∧ c.toNat ≤ 90 := by
      simp [isUpperAscii] at hu
      exact hu
    have h2 : (Char.ofNat (c.toNat + 32)).toNat = c.toNat + 32 :=
      toNat_ofNat_small _ (by omega)
    rw [heq] at h2
    have h3 : ('\n').toNat = 10 := by decide
    omega
  · simpa [hu] using h

theorem nl_not_mem_pyLower (s : List Char) (h : '\n' ∉ s) : '\n' ∉ pyLower s := by
  intro hmem
  obtain ⟨c, hc, heq⟩ := List.mem_map.mp hmem
  exact asciiToLower_ne_nl c (fun hcn => h (hcn ▸ hc)) heq

theorem nl_not_mem_collapseWsAux (cs : List Char) : ∀ b, '\n' ∉ collapseWsAux b cs := by
  induction cs with
  | nil => intro b; simp [collapseWsAux]
  | cons c cs ih =>
    intro b
    by_cases hc : isPySpace c
    · cases b with
      | false =>
        unfold collapseWsAux
        rw [if_pos hc, if_neg (by simp)]
        intro h
        rcases List.mem_cons.mp h with h | h
        · exact absurd h (by decide)
        · exact ih true h
      | true =>
        unfold collapseWsAux
        rw [if_pos hc, if_pos rfl]
        exact ih true
    · unfold collapseWsAux
      rw [if_neg hc]
      intro h
      rcases List.mem_cons.mp h with h | h
      · exact hc (by rw [← h]; decide)
      · exact ih false h

theorem nl_not_mem_collapseWs (raw : List Char) : '\n' ∉ collapseWs raw :=
  nl_not_mem_collapseWsAux raw false

theorem stripPageNumsAux_id (fuel : Nat) : ∀ cs, '\n' ∉ cs → stripPageNumsAux fuel cs = cs := by
  induction fuel with
  | zero => intro cs _; rfl
  | succ fuel ih =>
    intro cs h
    cases cs with
    | nil => rfl
    | cons c cs =>
      have hc : c ≠ '\n' := fun hcn => h (hcn ▸ List.mem_cons_self c cs)
      simp only [stripPageNumsAux, hc, if_false]
      rw [ih cs (fun hm => h (List.mem_cons_of_mem c hm))]

theorem stripPageNums_id (cs : List Char) (h : '\n' ∉ cs) : stripPageNums cs = cs :=
  stripPageNumsAux_id cs.length cs h

theorem matchUrlTail_mem (cs r : List Char) (h : matchUrlTail cs = some r) :
    ∀ a ∈ r, a ∈ cs := by
  unfold matchUrlTail at h
  split at h
  · split at h
    · exact absurd h (by simp)
    · rename_i r0 _
      intro a ha
      have hsub := (List.dropWhile_sublist (l := r0) isUrlChar).subset
      simp only [Option.some.injEq] at h
      subst h
      exact List.mem_cons_of_mem _ (List.mem_cons_of_mem _ (List.mem_cons_of_mem _ (hsub ha)))
  · exact absurd h (by simp)

theorem matchUrl_mem (cs r : List Char) (h : matchUrl cs = some r) : ∀ a ∈ r, a ∈ cs := by
  unfold matchUrl at h
  split at h
  · intro a ha
    exact List.mem_cons_of_mem _ (List.mem_cons_of_mem _ (List.mem_cons_of_mem _
      (List.mem_cons_of_mem _ (List.mem_cons_of_mem _ (matchUrlTail_mem _ _ h a ha)))))
  · intro a ha
    exact List.mem_cons_of_mem _ (List.mem_cons_of_mem _ (List.mem_cons_of_mem _
      (List.mem_cons_of_mem _ (matchUrlTail_mem _ _ h a ha))))
  · exact absurd h (by simp)

theorem stripUrlsAux_mem (fuel : Nat) : ∀ cs a, a ∈ stripUrlsAux fuel cs → a ∈ cs := by
  induction fuel with
  | zero => intro cs a h; exact h
  | succ fuel ih =>
    intro cs a h
    cases cs with
    | nil => simp [stripUrlsAux] at h
    | cons c cs =>
      rw [stripUrlsAux] at h
      split at h
      · rename_i r hr
        exact matchUrl_mem _ _ hr a (ih r a h)
      · rcases List.mem_cons.mp h with h | h
        · exact h ▸ List.mem_cons_self c cs
        · exact List.mem_cons_of_mem c (ih cs a h)

theorem stripUrls_mem (s : List Char) (a : Char) (h : a ∈ stripUrls s) : a ∈ s :=
  stripUrlsAux_mem s.length s a h

theorem stripEmailsAux_mem (fuel : Nat) : ∀ cs a, a ∈ stripEmailsAux fuel cs → a ∈ cs := by
  induction fuel with
  | zero => intro cs a h; exact h
  | succ fuel ih =>
    intro cs a h
    cases cs with
    | nil => simp [stripEmailsAux] at h
    | cons c cs =>
      rw [stripEmailsAux] at h
      by_cases hc : isPySpace c
      · simp only [hc, if_true, List.mem_cons] at h
        rcases h with h | h
        · exact h ▸ List.mem_cons_self c cs
        · exact List.mem_cons_of_mem c (ih cs a h)
      · simp only [hc, if_false] at h
        by_cases hint : hasInteriorAt (List.takeWhile (fun d => !isPySpace d) (c :: cs))
        · rw [if_pos hint] at h
          exact (List.dropWhile_sublist _).subset (ih _ a h)
        · rw [if_neg hint] at h
          rcases List.mem_append.mp h with h | h
          · exact (List.takeWhile_sublist _).subset h
          · exact (List.dropWhile_sublist _).subset (ih _ a h)

theorem stripEmails_mem (s : List Char) (a : Char) (h : a ∈ stripEmails s) : a ∈ s :=
  stripEmailsAux_mem s.length s a h

theorem collapseNlAux_id : ∀ cs, '\n' ∉ cs → ∀ b, collapseNlAux b cs = cs := by
  intro cs
  induction cs with
  | nil => intro _ b; rfl
  | cons c cs ih =>
    intro h b
    have hc : c ≠ '\n' := fun hcn => h (hcn ▸ List.mem_cons_self c cs)
    simp only [collapseNlAux, hc, if_false]
    rw [ih (fun hm => h (List.mem_cons_of_mem c hm)) false]

theorem collapseNl_id (cs : List Char) (h : '\n' ∉ cs) : collapseNl cs = cs :=
  collapseNlAux_id cs h false

theorem pyStrip_mem (s : List Char) (a : Char) (h : a ∈ pyStrip s) : a ∈ s := by
  unfold pyStrip at h
  rw [List.mem_reverse] at h
  have h1 := (List.dropWhile_sublist isPySpace).subset h
  rw [List.mem_reverse] at h1
  exact (List.dropWhile_sublist isPySpace).subset h1

theorem nl_not_mem_intermediate (raw : List Char) :
    '\n' ∉ stripEmails (stripUrls (stripPageNums (collapseWs raw))) := by
  intro hm
  have h2 := stripEmails_mem _ _ hm
  have h3 := stripUrls_mem _ _ h2
  rw [stripPageNums_id _ (nl_not_mem_collapseWs raw)] at h3
  exact nl_not_mem_collapseWs raw h3

theorem nl_not_mem_clean_pdf_text (raw : List Char) : '\n' ∉ clean_pdf_text raw := by
  intro h
  have h1 := pyStrip_mem _ _ h
  rw [collapseNl_id _ (nl_not_mem_intermediate raw)] at h1
  exact nl_not_mem_intermediate raw h1

theorem leadsWith_mem (p : List Char) : ∀ h, leadsWith p h = true → ∀ a ∈ p, a ∈ h := by
  induction p with
  | nil => intro h _ a ha; exact absurd ha (List.not_mem_nil a)
  | cons c cs ih =>
    intro h hl a ha
    cases h with
    | nil => simp [leadsWith] at hl
    | cons d ds =>
      simp only [leadsWith, Bool.and_eq_true, decide_eq_true_eq] at hl
      rcases List.mem_cons.mp ha with h1 | h1
      · exact h1 ▸ hl.1 ▸ List.mem_cons_self d ds
      · exact List.mem_cons_of_mem d (ih ds hl.2 a h1)

theorem findSubstrAux_none (p : List Char) (hp : '\n' ∈ p) :
    ∀ hay, '\n' ∉ hay → ∀ i, findSubstrAux p hay i = none := by
  intro hay
  induction hay with
  | nil =>
    intro _ i
    have hne : ¬ p.isEmpty = true := by
      cases p with
      | nil => exact absurd hp (List.not_mem_nil _)
      | cons c cs => simp
    simp [findSubstrAux, hne]
  | cons c cs ih =>
    intro h i
    have hl : ¬ leadsWith p (c :: cs) = true := by
      intro hl
      exact h (leadsWith_mem p _ hl '\n' hp)
    simp only [findSubstrAux, hl, if_false]
    exact ih (fun hm => h (List.mem_cons_of_mem c hm)) (i + 1)

theorem sectionGo_eq_none (text : List Char) (cap : Nat) :
    ∀ pats : List (List Char), (∀ p ∈ pats, findSubstr p (pyLower text) = none) →
      sectionGo text cap pats = none := by
  intro pats
  induction pats with
  | nil => intro _; rfl
  | cons p ps ih =>
    intro h
    have hp := h p (List.mem_cons_self p ps)
    simp only [sectionGo, hp]
    exact ih (fun q hq => h q (List.mem_cons_of_mem p hq))

/-- C2: the normalizer's output contains no newline: the whitespace
collapse removes every newline, the page-number pass and the
newline-collapse pass are identity on their (newline-free) inputs, and
any start-pattern list whose patterns all contain a newline — such as
the section patterns of the orchestrator — can never match the
normalizer's output, so section extraction returns null on it. -/
theorem clean_text_newline_free (raw : List Char) :
    '\n' ∉ clean_pdf_text raw ∧
    stripPageNums (collapseWs raw) = collapseWs raw ∧
    collapseNl (stripEmails (stripUrls (stripPageNums (collapseWs raw)))) =
      stripEmails (stripUrls (stripPageNums (collapseWs raw))) ∧
    ∀ pats : List (List Char), ∀ cap : Nat, (∀ p ∈ pats, '\n' ∈ p) →
      extract_section_by_pattern (clean_pdf_text raw) pats cap = none := by
  refine ⟨nl_not_mem_clean_pdf_text raw,
    stripPageNums_id _ (nl_not_mem_collapseWs raw),
    collapseNl_id _ (nl_not_mem_intermediate raw), ?_⟩
  intro pats cap hpats
  apply sectionGo_eq_none
  intro p hp
  exact findSubstrAux_none p (hpats p hp) _
    (nl_not_mem_pyLower _ (nl_not_mem_clean_pdf_text raw)) 0

/-- C2 witness: on the example input, the orchestrator's Introduction
patterns (each containing a newline) find nothing in the cleaned text. -/
theorem clean_text_newline_free_witness :
    extract_section_by_pattern (clean_pdf_text exampleRaw) introPatterns 1500 = none :=
  (clean_text_newline_free exampleRaw).2.2.2 introPatterns 1500 (by decide)

/-! ## Characterisation of the generic section extractor (claims C5, C6) -/

theorem sectionGo_characterisation (text : List Char) (cap : Nat) :
    ∀ pats : List (List Char),
      sectionGo text cap pats =
        match firstStartMatch (pyLower text) pats with
        | some (p, i) => sectionFrom text (i + p.length) cap
        | none => none := by
  intro pats
  induction pats with
  | nil => rfl
  | cons p ps ih =>
    unfold sectionGo firstStartMatch
    cases h : findSubstr p (pyLower text) with
    | some i => rfl
    | none => exact ih

theorem optSection_eq_none_iff (s : List Char) (cap : Nat) :
    optSection s cap = none ↔ s = [] := by
  cases s with
  | nil => simp [optSection]
  | cons c cs => simp [optSection]

theorem optSection_length (s : List Char) (cap : Nat) (t : List Char)
    (h : optSection s cap = some t) : t.length ≤ cap := by
  cases s with
  | nil => simp [optSection] at h
  | cons c cs =>
    simp only [optSection, List.isEmpty_cons, Bool.false_eq_true, if_false,
      Option.some.injEq] at h
    rw [← h]
    exact List.length_take_le _ _

/-- C5: the generic section extractor returns null exactly when no start
pattern matches the lowercased text, or when the first matching
pattern's captured section is empty after trimming; and every non-null
result is at most `max_chars` long. -/
theorem extract_section_null_and_cap (text : List Char) (pats : List (List Char))
    (cap : Nat) :
    (extract_section_by_pattern text pats cap = none ↔
      firstStartMatch (pyLower text) pats = none ∨
      ∃ p i, firstStartMatch (pyLower text) pats = some (p, i) ∧
        strippedSection text (i + p.length) = []) ∧
    (∀ s, extract_section_by_pattern text pats cap = some s → s.length ≤ cap) := by
  unfold extract_section_by_pattern
  rw [sectionGo_characterisation]
  cases hf : firstStartMatch (pyLower text) pats with
  | none =>
    refine ⟨⟨fun _ => Or.inl rfl, fun _ => rfl⟩, ?_⟩
    intro s hs
    exact absurd hs (by simp)
  | some pi =>
    obtain ⟨p, i⟩ := pi
    constructor
    · constructor
      · intro hnone
        refine Or.inr ⟨p, i, rfl, ?_⟩
        exact (optSection_eq_none_iff _ _).mp hnone
      · intro h
        rcases h with h | ⟨p', i', hpi, hstrip⟩
        · exact absurd h (by simp)
        · simp only [Option.some.injEq, Prod.mk.injEq] at hpi
          obtain ⟨hp, hi⟩ := hpi
          subst hp; subst hi
          exact (optSection_eq_none_iff _ _).mpr hstrip
    · intro s hs
      exact optSection_length _ _ _ hs

/-- C5 witness: a concrete extraction that succeeds, with its length
under the cap. -/
theorem extract_section_null_and_cap_witness : (lc "bc").length ≤ 1500 :=
  (extract_section_null_and_cap (lc "abc") [lc "a"] 1500).2 (lc "bc") (by rfl)

theorem endPosFrom_some (text : List Char) (s j : Nat)
    (hj : boundaryOffset ((pyLower text).drop s) = some j) :
    endPosFrom text s = s + j := by
  unfold endPosFrom
  rw [hj]

theorem endPosFrom_none (text : List Char) (s : Nat)
    (hn : boundaryOffset ((pyLower text).drop s) = none) :
    endPosFrom text s = text.length := by
  unfold endPosFrom
  rw [hn]

/-- C6: once a start pattern has matched (first pattern in list order,
leftmost occurrence, end position `i + |p|`), the section's end is
delimited by the first boundary pattern of the fixed ordered boundary
list that matches the lowercased text after the start position: when
the first matching boundary pattern's leftmost offset is `j`, the
section is the slice of length `j` after the start; when no boundary
pattern matches there, the section runs to the end of the text. -/
theorem section_end_delimiting (text : List Char) (pats : List (List Char)) (cap : Nat)
    (p : List Char) (i : Nat)
    (h1 : firstStartMatch (pyLower text) pats = some (p, i)) :
    (∀ j, boundaryOffset ((pyLower text).drop (i + p.length)) = some j →
      extract_section_by_pattern text pats cap =
        optSection (pyStrip ((text.drop (i + p.length)).take j)) cap) ∧
    (boundaryOffset ((pyLower text).drop (i + p.length)) = none →
      extract_section_by_pattern text pats cap =
        optSection (pyStrip (text.drop (i + p.length))) cap) := by
  have hgo : extract_section_by_pattern text pats cap =
      sectionFrom text (i + p.length) cap := by
    unfold extract_section_by_pattern
    rw [sectionGo_characterisation, h1]
  constructor
  · intro j hj
    rw [hgo]
    unfold sectionFrom strippedSection
    rw [endPosFrom_some text _ j hj]
    have harith : i + p.length + j - (i + p.length) = j := by omega
    rw [harith]
  · intro hn
    rw [hgo]
    unfold sectionFrom strippedSection
    rw [endPosFrom_none text _ hn]
    rw [← List.length_drop, List.take_length]

/-- C6 witness: a concrete text in which the `\nreferences\n` boundary
(offset 4 after the start match) cuts the section. -/
theorem section_end_delimiting_witness :
    extract_section_by_pattern (lc "introduction abc\nreferences\nxyz")
      [lc "introduction"] 1500 = some (lc "abc") := by
  have h := (section_end_delimiting (lc "introduction abc\nreferences\nxyz")
    [lc "introduction"] 1500 (lc "introduction") 0 (by rfl)).1 4 (by rfl)
  rw [h]
  rfl

/-! ## Characterisation of the title extractor (claim C7) -/

theorem titleLoop_characterisation : ∀ ls : List (List Char),
    titleLoop ls =
      ((ls.find? (fun l => !hasTitleMarker l && decide (l.length > 10))).getD
        (lc "Document title not found")) := by
  intro ls
  induction ls with
  | nil => rfl
  | cons l ls ih =>
    unfold titleLoop
    by_cases hm : hasTitleMarker l
    · rw [if_pos hm, List.find?_cons_of_neg _ (by simp [hm]), ih]
    · rw [if_neg hm]
      by_cases hl : l.length > 10
      · rw [if_pos hl, List.find?_cons_of_pos _ (by simp [hm, hl])]
        rfl
      · rw [if_neg hl, List.find?_cons_of_neg _ (by simp [hm, hl]), ih]

theorem titleLoop_ne_nil : ∀ ls : List (List Char), titleLoop ls ≠ [] := by
  intro ls
  induction ls with
  | nil => simp [titleLoop, lc]
  | cons l ls ih =>
    unfold titleLoop
    by_cases hm : hasTitleMarker l
    · rw [if_pos hm]; exact ih
    · rw [if_neg hm]
      by_cases hl : l.length > 10
      · rw [if_pos hl]
        intro he
        rw [he] at hl
        simp at hl
      · rw [if_neg hl]; exact ih

/-- C7: the title extractor returns the first of the first 20 non-empty
stripped lines that has no skip marker and is longer than 10
characters, or the sentinel `"Document title not found"` when no line
qualifies; it is total (never null) and its result is never the empty
string. -/
theorem extract_title_characterisation (text : List Char) :
    extract_title text =
      ((((splitCleanLines text).take 20).find?
        (fun l => !hasTitleMarker l && decide (l.length > 10))).getD
        (lc "Document title not found")) ∧
    extract_title text ≠ [] :=
  ⟨titleLoop_characterisation _, titleLoop_ne_nil _⟩

/-! ## Orchestrator invariant (claim C4) -/

theorem orFallback_is_str (r : Option (List Char)) (fb : List Char) :
    ∃ s, orFallback r fb = PyVal.str s := by
  cases r with
  | none => exact ⟨fb, rfl⟩
  | some s =>
    by_cases h : s.isEmpty
    · exact ⟨fb, by simp [orFallback, h]⟩
    · exact ⟨s, by simp [orFallback, h]⟩

/-- C4: for every cleaned-text input the orchestrator's mapping holds a
(non-null) string under each of the four required keys; when a required
section's extraction is null its literal fallback sentinel is stored,
and null extraction results for the optional keys pass through as null. -/
theorem orchestrator_required_nonnull (ct : List Char) :
    (∃ s, dictGet (extract_document_structure ct) (lc "document") = some (PyVal.str s)) ∧
    (∃ s, dictGet (extract_document_structure ct) (lc "Introduction") = some (PyVal.str s)) ∧
    (∃ s, dictGet (extract_document_structure ct) (lc "Thoughts") = some (PyVal.str s)) ∧
    (∃ s, dictGet (extract_document_structure ct) (lc "Answers") = some (PyVal.str s)) ∧
    (extract_section_by_pattern ct introPatterns 1500 = none →
      dictGet (extract_document_structure ct) (lc "Introduction") =
        some (PyVal.str (lc "Introduction section not found in document"))) ∧
    (extract_section_by_pattern ct thoughtPatterns 1500 = none →
      dictGet (extract_document_structure ct) (lc "Thoughts") =
        some (PyVal.str (lc "Methods/Discussion section not found in document"))) ∧
    (extract_section_by_pattern ct answerPatterns 1500 = none →
      dictGet (extract_document_structure ct) (lc "Answers") =
        some (PyVal.str (lc "Results/Conclusions section not found in document"))) ∧
    (extract_references ct = none →
      dictGet (extract_document_structure ct) (lc "Further_Reading") = some PyVal.none) ∧
    (extract_figures_and_images ct = none →
      dictGet (extract_document_structure ct) (lc "Images") = some PyVal.none) ∧
    (extract_section_by_pattern ct limitationPatterns 1000 = none →
      dictGet (extract_document_structure ct) (lc "Further_Development") = some PyVal.none) := by
  have hdoc : dictGet (extract_document_structure ct) (lc "document") =
      some (PyVal.str (extract_title ct)) := rfl
  have hint : dictGet (extract_document_structure ct) (lc "Introduction") =
      some (orFallback (extract_section_by_pattern ct introPatterns 1500)
        (lc "Introduction section not found in document")) := rfl
  have hth : dictGet (extract_document_structure ct) (lc "Thoughts") =
      some (orFallback (extract_section_by_pattern ct thoughtPatterns 1500)
        (lc "Methods/Discussion section not found in document")) := rfl
  have hans : dictGet (extract_document_structure ct) (lc "Answers") =
      some (orFallback (extract_section_by_pattern ct answerPatterns 1500)
        (lc "Results/Conclusions section not found in document")) := rfl
  have hfr : dictGet (extract_document_structure ct) (lc "Further_Reading") =
      some (optVal (extract_references ct)) := rfl
  have him : dictGet (extract_document_structure ct) (lc "Images") =
      some (optVal (extract_figures_and_images ct)) := rfl
  have hfd : dictGet (extract_document_structure ct) (lc "Further_Development") =
      some (optVal (extract_section_by_pattern ct limitationPatterns 1000)) := rfl
  refine ⟨⟨extract_title ct, hdoc⟩, ?_, ?_, ?_, ?_, ?_, ?_, ?_, ?_, ?_⟩
  · obtain ⟨s, hs⟩ := orFallback_is_str (extract_section_by_pattern ct introPatterns 1500)
      (lc "Introduction section not found in document")
    exact ⟨s, by rw [hint, hs]⟩
  · obtain ⟨s, hs⟩ := orFallback_is_str (extract_section_by_pattern ct thoughtPatterns 1500)
      (lc "Methods/Discussion section not found in document")
    exact ⟨s, by rw [hth, hs]⟩
  · obtain ⟨s, hs⟩ := orFallback_is_str (extract_section_by_pattern ct answerPatterns 1500)
      (lc "Results/Conclusions section not found in document")
    exact ⟨s, by rw [hans, hs]⟩
  · intro h; rw [hint, h]; rfl
  · intro h; rw [hth, h]; rfl
  · intro h; rw [hans, h]; rfl
  · intro h; rw [hfr, h]; rfl
  · intro h; rw [him, h]; rfl
  · intro h; rw [hfd, h]; rfl

/-- C4 witness: on the empty cleaned text no section is found, the
required Introduction field carries its fallback sentinel and the
optional Further_Reading field is null. -/
theorem orchestrator_required_nonnull_witness :
    dictGet (extract_document_structure []) (lc "Introduction") =
      some (PyVal.str (lc "Introduction section not found in document")) ∧
    dictGet (extract_document_structure []) (lc "Further_Reading") = some PyVal.none :=
  ⟨(orchestrator_required_nonnull []).2.2.2.2.1 (by rfl),
   (orchestrator_required_nonnull []).2.2.2.2.2.2.2.1 (by rfl)⟩

/-! ## Validation (claim C3) -/

theorem reqErr_nil (d : PyDict) (k : List Char)
    (h : ∃ s, dictGet d k = some (PyVal.str s)) : reqErr d k = [] := by
  obtain ⟨s, hs⟩ := h
  unfold reqErr
  rw [hs]

theorem optErr_nil (d : PyDict) (k : List Char)
    (h : dictGet d k = Option.none ∨ dictGet d k = some PyVal.none ∨
      ∃ s, dictGet d k = some (PyVal.str s)) : optErr d k = [] := by
  unfold optErr
  rcases h with h | h | ⟨s, h⟩ <;> rw [h]

/-- C3 (amended): a mapping in which a required field is missing always
fails validation; a mapping in which every required field is present
with a string value (empty or not) and every optional field is absent,
null or a string always validates. -/
theorem validation_required_and_success :
    (∀ d : PyDict, ∀ k, k ∈ requiredFields → dictGet d k = Option.none →
      ∃ e, create_document_info d = Except.error e) ∧
    (∀ d : PyDict,
      (∀ k, k ∈ requiredFields → ∃ s, dictGet d k = some (PyVal.str s)) →
      (∀ k, k ∈ optionalFields → dictGet d k = Option.none ∨
        dictGet d k = some PyVal.none ∨ ∃ s, dictGet d k = some (PyVal.str s)) →
      ∃ info, create_document_info d = Except.ok info) := by
  constructor
  · intro d k hk hget
    have hke : reqErr d k = [k] := by unfold reqErr; rw [hget]
    have hmem : k ∈ validationErrors d := by
      unfold validationErrors
      refine List.mem_append.mpr (Or.inl ?_)
      refine List.mem_flatten.mpr ⟨reqErr d k, List.mem_map.mpr ⟨k, hk, rfl⟩, ?_⟩
      rw [hke]
      exact List.mem_cons_self k []
    have hne : ¬ validationErrors d = [] := fun he => by
      rw [he] at hmem
      exact List.not_mem_nil k hmem
    refine ⟨validationErrors d, ?_⟩
    unfold create_document_info
    rw [if_neg hne]
  · intro d hreq hopt
    have r1 := reqErr_nil d (lc "document") (hreq _ (by simp [requiredFields]))
    have r2 := reqErr_nil d (lc "Introduction") (hreq _ (by simp [requiredFields]))
    have r3 := reqErr_nil d (lc "Thoughts") (hreq _ (by simp [requiredFields]))
    have r4 := reqErr_nil d (lc "Answers") (hreq _ (by simp [requiredFields]))
    have o1 := optErr_nil d (lc "Hallmarks") (hopt _ (by simp [optionalFields]))
    have o2 := optErr_nil d (lc "Further_Reading") (hopt _ (by simp [optionalFields]))
    have o3 := optErr_nil d (lc "Images") (hopt _ (by simp [optionalFields]))
    have o4 := optErr_nil d (lc "Further_Development") (hopt _ (by simp [optionalFields]))
    have o5 := optErr_nil d (lc "Thoughts_I") (hopt _ (by simp [optionalFields]))
    have o6 := optErr_nil d (lc "Answers_I") (hopt _ (by simp [optionalFields]))
    have o7 := optErr_nil d (lc "Answers_II") (hopt _ (by simp [optionalFields]))
    have o8 := optErr_nil d (lc "Further_Thoughts") (hopt _ (by simp [optionalFields]))
    have o9 := optErr_nil d (lc "Ependymoma") (hopt _ (by simp [optionalFields]))
    have hv : validationErrors d = [] := by
      unfold validationErrors requiredFields optionalFields
      simp only [List.map_cons, List.map_nil, List.flatten_cons, List.flatten_nil]
      rw [r1, r2, r3, r4, o1, o2, o3, o4, o5, o6, o7, o8, o9]
      simp
    exact ⟨⟨getStr d (lc "document"), getStr d (lc "Introduction"),
      getStr d (lc "Thoughts"), getStr d (lc "Answers"), getOptStr d (lc "Hallmarks"),
      getOptStr d (lc "Further_Reading"), getOptStr d (lc "Images"),
      getOptStr d (lc "Further_Development"), getOptStr d (lc "Thoughts_I"),
      getOptStr d (lc "Answers_I"), getOptStr d (lc "Answers_II"),
      getOptStr d (lc "Further_Thoughts"), getOptStr d (lc "Ependymoma")⟩,
      by unfold create_document_info; rw [if_pos hv]⟩

/-- C3 counterexample: pydantic-style validation does not require the
required fields to be non-empty — the mapping whose four required
fields are all the empty string validates successfully. -/
theorem validation_empty_strings_accepted :
    ∃ info, create_document_info
      [(lc "document", PyVal.str []), (lc "Introduction", PyVal.str []),
       (lc "Thoughts", PyVal.str []), (lc "Answers", PyVal.str [])] =
        Except.ok info ∧ info.document = [] := by
  refine ⟨_, rfl, rfl⟩

/-- C3 witness: a mapping missing every required field fails, and a
mapping with the four required fields present as strings (and no
optional field) validates. -/
theorem validation_required_and_success_witness :
    (∃ e, create_document_info [] = Except.error e) ∧
    (∃ info, create_document_info
      [(lc "document", PyVal.str (lc "t")), (lc "Introduction", PyVal.str (lc "i")),
       (lc "Thoughts", PyVal.str (lc "h")), (lc "Answers", PyVal.str (lc "a"))] =
        Except.ok info) := by
  constructor
  · exact validation_required_and_success.1 [] (lc "document")
      (by simp [requiredFields]) rfl
  · refine validation_required_and_success.2 _ ?_ ?_
    · intro k hk
      simp only [requiredFields, List.mem_cons, List.not_mem_nil, or_false] at hk
      rcases hk with rfl | rfl | rfl | rfl
      · exact ⟨lc "t", rfl⟩
      · exact ⟨lc "i", rfl⟩
      · exact ⟨lc "h", rfl⟩
      · exact ⟨lc "a", rfl⟩
    · intro k hk
      simp only [optionalFields, List.mem_cons, List.not_mem_nil, or_false] at hk
      rcases hk with rfl | rfl | rfl | rfl | rfl | rfl | rfl | rfl | rfl <;>
        exact Or.inl rfl

/-! ## Enhancement merge (claims C8, C9, C10) -/

/-- C9: with no model-invocation function supplied, the enhancement
merge is the identity on the heuristic mapping. -/
theorem enhance_without_llm_identity (extracted : PyDict) (ct : List Char)
    (jsonLoads : List Char → Except Unit PyVal) :
    enhance_with_llm extracted ct Option.none jsonLoads = extracted := rfl

/-- C8: every failure inside the enhancement — a model invocation that
raises, a string response whose extracted JSON span fails to decode,
and in particular a string response containing no opening brace — makes
the merge return the heuristic mapping unchanged (the embedding is
total, modelling that no exception escapes the `try/except`). -/
theorem enhance_failure_returns_input (extracted : PyDict) (ct : List Char)
    (f : List Char → Except Unit PyVal) (jsonLoads : List Char → Except Unit PyVal) :
    (∀ e, f (create_llm_prompt ct) = Except.error e →
      enhance_with_llm extracted ct (some f) jsonLoads = extracted) ∧
    (∀ resp, f (create_llm_prompt ct) = Except.ok resp →
      ∀ e, parseLlmResponse jsonLoads resp = Except.error e →
        enhance_with_llm extracted ct (some f) jsonLoads = extracted) ∧
    (∀ s, pyFind s '{' = -1 →
      parseLlmResponse jsonLoads (PyVal.str s) = Except.error ()) := by
  refine ⟨?_, ?_, ?_⟩
  · intro e he
    simp only [enhance_with_llm, he]
  · intro resp hresp e hparse
    simp only [enhance_with_llm, hresp, hparse]
  · intro s hs
    simp only [parseLlmResponse, hs]
    simp

/-- C8 witness: a model function that raises leaves a concrete mapping
unchanged. -/
theorem enhance_failure_returns_input_witness :
    enhance_with_llm [(lc "document", PyVal.str (lc "t"))] []
      (some (fun _ => Except.error ())) (fun _ => Except.error ()) =
      [(lc "document", PyVal.str (lc "t"))] :=
  (enhance_failure_returns_input [(lc "document", PyVal.str (lc "t"))] []
    (fun _ => Except.error ()) (fun _ => Except.error ())).1 () rfl

theorem dictGet_cons (k0 : List Char) (v0 : PyVal) (rest : PyDict) (k : List Char) :
    dictGet ((k0, v0) :: rest) k = if k0 = k then some v0 else dictGet rest k := by
  unfold dictGet
  by_cases h : k0 = k
  · rw [List.find?_cons_of_pos _ (by simp [h]), if_pos h]
    rfl
  · rw [List.find?_cons_of_neg _ (by simp [h]), if_neg h]

theorem dictGet_dictSet (d : PyDict) (k : List Char) (v : PyVal) (k' : List Char) :
    dictGet (dictSet d k v) k' = if k' = k then some v else dictGet d k' := by
  induction d with
  | nil =>
    have hset : dictSet [] k v = [(k, v)] := rfl
    rw [hset, dictGet_cons]
    by_cases h : k = k'
    · rw [if_pos h, if_pos h.symm]
    · rw [if_neg h, if_neg (fun he => h he.symm)]
  | cons kv rest ih =>
    obtain ⟨k0, v0⟩ := kv
    unfold dictSet
    by_cases h0 : k0 = k
    · subst h0
      rw [if_pos rfl]
      by_cases h : k0 = k'
      · rw [dictGet_cons, if_pos h, if_pos h.symm]
      · rw [dictGet_cons, if_neg h, if_neg (fun he => h he.symm), dictGet_cons, if_neg h]
    · rw [if_neg h0]
      by_cases h : k0 = k'
      · rw [dictGet_cons, if_pos h, dictGet_cons, if_pos h,
          if_neg (fun hke => h0 (h.trans hke))]
      · by_cases hk : k' = k
        · rw [dictGet_cons, if_neg h, ih, if_pos hk, if_pos hk]
        · rw [dictGet_cons, if_neg h, ih, if_neg hk, if_neg hk, dictGet_cons, if_neg h]

theorem mergeLlm_no_falsy (extracted : PyDict) :
    ∀ (kvs : List (List Char × PyVal)) (acc : PyDict),
      (∀ k v, dictGet acc k = some v →
        dictGet extracted k = some v ∨ (pyTruthy v = true ∧ isNullStr v = false)) →
      ∀ k v, dictGet (mergeLlm acc kvs) k = some v →
        dictGet extracted k = some v ∨ (pyTruthy v = true ∧ isNullStr v = false) := by
  intro kvs
  induction kvs with
  | nil => intro acc hacc k v h; exact hacc k v h
  | cons kv rest ih =>
    intro acc hacc k v h
    refine ih (if pyTruthy kv.2 && !isNullStr kv.2 then dictSet acc kv.1 kv.2 else acc)
      ?_ k v h
    intro k1 v1 h1
    by_cases hc : (pyTruthy kv.2 && !isNullStr kv.2) = true
    · rw [if_pos hc, dictGet_dictSet] at h1
      by_cases hk : k1 = kv.1
      · rw [if_pos hk] at h1
        have hv1 : v1 = kv.2 := (Option.some.inj h1).symm
        subst hv1
        have hand := hc
        rw [Bool.and_eq_true] at hand
        refine Or.inr ⟨hand.1, ?_⟩
        have hn := hand.2
        rwa [Bool.not_eq_true'] at hn
      · rw [if_neg hk] at h1
        exact hacc k1 v1 h1
    · rw [if_neg hc] at h1
      exact hacc k1 v1 h1

/-- C10: the enhancement merge never installs a key of the model's
output with a falsy value or the literal string "null": every binding
of the merged mapping is either the original heuristic binding or a
truthy value different from the string "null". -/
theorem merge_never_introduces_falsy (extracted : PyDict)
    (kvs : List (List Char × PyVal)) (k : List Char) (v : PyVal)
    (h : dictGet (mergeLlm extracted kvs) k = some v) :
    dictGet extracted k = some v ∨ (pyTruthy v = true ∧ isNullStr v = false) :=
  mergeLlm_no_falsy extracted kvs extracted (fun _ _ hg => Or.inl hg) k v h

/-- C10 witness: a concrete merge where the model overwrites a key with
a truthy, non-"null" string. -/
theorem merge_never_introduces_falsy_witness :
    dictGet [(lc "a", PyVal.str (lc "x"))] (lc "a") = some (PyVal.str (lc "y")) ∨
    (pyTruthy (PyVal.str (lc "y")) = true ∧ isNullStr (PyVal.str (lc "y")) = false) :=
  merge_never_introduces_falsy [(lc "a", PyVal.str (lc "x"))]
    [(lc "a", PyVal.str (lc "y"))] (lc "a") (PyVal.str (lc "y")) (by rfl)

/-! ## The example scenario (claim C1) -/

set_option maxRecDepth 100000 in
/-- C1 counterexample: on the spec's example raw text the pipeline does
not extract the claimed sections — the Introduction field holds the
fallback sentinel (which does not contain "This paper studies X.") and
Further_Reading is null rather than the Smith citation, because the
whitespace collapse removed every newline the section patterns need. -/
theorem example_scenario_counterexample :
    dictGet (extract_document_structure (clean_pdf_text exampleRaw)) (lc "Introduction") =
      some (PyVal.str (lc "Introduction section not found in document")) ∧
    containsSub (lc "This paper studies X.")
      (lc "Introduction section not found in document") = false ∧
    dictGet (extract_document_structure (clean_pdf_text exampleRaw)) (lc "Further_Reading") =
      some PyVal.none := by
  refine ⟨by rfl, by decide, by rfl⟩

set_option maxRecDepth 100000 in
/-- C1 (amended): on the spec's example raw text, cleaning collapses all
whitespace to single blanks, so the single remaining line contains the
ISSN marker (title falls back to its sentinel) and no newline-anchored
section pattern can match: Introduction, Thoughts and Answers hold
their fallback sentinels and the optional fields are null. -/
theorem example_scenario_actual :
    dictGet (extract_document_structure (clean_pdf_text exampleRaw)) (lc "document") =
      some (PyVal.str (lc "Document title not found")) ∧
    dictGet (extract_document_structure (clean_pdf_text exampleRaw)) (lc "Introduction") =
      some (PyVal.str (lc "Introduction section not found in document")) ∧
    dictGet (extract_document_structure (clean_pdf_text exampleRaw)) (lc "Thoughts") =
      some (PyVal.str (lc "Methods/Discussion section not found in document")) ∧
    dictGet (extract_document_structure (clean_pdf_text exampleRaw)) (lc "Answers") =
      some (PyVal.str (lc "Results/Conclusions section not found in document")) ∧
    dictGet (extract_document_structure (clean_pdf_text exampleRaw)) (lc "Further_Reading") =
      some PyVal.none ∧
    dictGet (extract_document_structure (clean_pdf_text exampleRaw)) (lc "Images") =
      some PyVal.none ∧
    dictGet (extract_document_structure (clean_pdf_text exampleRaw)) (lc "Further_Development") =
      some PyVal.none := by
  refine ⟨by rfl, by rfl, by rfl, by rfl, by rfl, by rfl, by rfl⟩
